import Mathlib

/-!
Verification of the annotation merge / representative-selection engine of the
ssbio GEM-PRO pipeline (`ssbio/pipeline/gempro.py`).

The per-gene annotation state is a nest of Python dictionaries.  We embed it
with explicit record types:

* `KeggRecord` is the `annotation['sequence']['kegg']` dictionary; all six
  keys are always present (they are created by the gene initializers and only
  updated afterwards).
* `UniProtEntry` is one value of the `annotation['sequence']['uniprot']`
  mapping.  The six keys that `set_representative_sequence` may copy into the
  representative (`kegg_id`, `uniprot_acc`, `pdbs`, `seq_len`, `seq_file`,
  `metadata_file`) are copied only `if your_key in uni_prop`, so we model
  their presence with `Option` (`none` = key absent).  `reviewed` and `pdbs`
  are total because the ranking code accesses them unconditionally and the
  UniProt ingestor always stores them.
* `RepSeqRecord` is `annotation['sequence']['representative']`.  Its
  `kegg_id` value is a plain (possibly `None`) string when it was copied from
  a KEGG record and a list of strings when copied from a UniProt record (the
  source itself distinguishes the two shapes with `isinstance(..., list)`),
  hence `KeggIdVal`.
* Ordered Python dictionaries become association lists in insertion order.

Floating-point metadata values (resolutions, coverages, scores) are embedded
as `Rat`: they are only copied and compared, never computed with, so rational
arithmetic models the source exactly on its non-NaN inputs.
-/

/-- Decidable equality of `Except` results, used to evaluate the resolvers on
concrete inputs. -/
instance {ε α : Type} [DecidableEq ε] [DecidableEq α] : DecidableEq (Except ε α) :=
  fun x y =>
    match x, y with
    | Except.ok a, Except.ok b =>
      if h : a = b then isTrue (by simp [h]) else isFalse (by simp [h])
    | Except.error a, Except.error b =>
      if h : a = b then isTrue (by simp [h]) else isFalse (by simp [h])
    | Except.ok _, Except.error _ => isFalse (by simp)
    | Except.error _, Except.ok _ => isFalse (by simp)

/-- Value stored under the representative's `kegg_id` key: either a scalar
(`None` or a string, the shape a KEGG record carries) or a list of strings
(the shape a UniProt record carries). -/
inductive KeggIdVal
  | scalar (s : Option String)
  | strList (l : List String)
deriving DecidableEq

/-- The `annotation['sequence']['kegg']` dictionary.  All six keys are always
present. -/
structure KeggRecord where
  uniprot_acc : Option String
  kegg_id : Option String
  seq_len : Nat
  pdbs : List String
  seq_file : Option String
  metadata_file : Option String
deriving DecidableEq

/-- One entry of the `annotation['sequence']['uniprot']` mapping.  `Option`
fields model key presence: the selective copy in
`set_representative_sequence` only transfers keys that exist. -/
structure UniProtEntry where
  reviewed : Bool
  pdbs : List String
  kegg_id : Option (List String)
  uniprot_acc : Option String
  seq_len : Option Nat
  seq_file : Option String
  metadata_file : Option String
deriving DecidableEq

/-- The `annotation['sequence']['representative']` dictionary. -/
structure RepSeqRecord where
  uniprot_acc : Option String
  kegg_id : KeggIdVal
  seq_len : Nat
  pdbs : List String
  seq_file : Option String
  metadata_file : Option String
deriving DecidableEq

/-- The whole `annotation['sequence']` sub-record of a gene.  The `uniprot`
mapping is an insertion-ordered association list (Python dict iteration
order). -/
structure SequenceProp where
  kegg : KeggRecord
  uniprot : List (String × UniProtEntry)
  representative : RepSeqRecord
deriving DecidableEq

/-- `representative.update(kegg_prop)` (gempro.py lines 622 and 651): the KEGG
dictionary always carries all six keys, so every field is replaced. -/
def updateFromKegg (k : KeggRecord) : RepSeqRecord :=
  { uniprot_acc := k.uniprot_acc
    kegg_id := KeggIdVal.scalar k.kegg_id
    seq_len := k.seq_len
    pdbs := k.pdbs
    seq_file := k.seq_file
    metadata_file := k.metadata_file }

/-- `representative.update(for_saving)` (gempro.py lines 639-641 and 664-666):
only the keys present in the chosen UniProt entry are replaced. -/
def updateFromUniProt (rep : RepSeqRecord) (u : UniProtEntry) : RepSeqRecord :=
  { uniprot_acc := match u.uniprot_acc with | some v => some v | none => rep.uniprot_acc
    kegg_id := match u.kegg_id with | some l => KeggIdVal.strList l | none => rep.kegg_id
    seq_len := match u.seq_len with | some n => n | none => rep.seq_len
    pdbs := u.pdbs
    seq_file := match u.seq_file with | some v => some v | none => rep.seq_file
    metadata_file := match u.metadata_file with | some v => some v | none => rep.metadata_file }

/-- Python dictionary indexing `d[k]` on an insertion-ordered association
list. -/
def odLookup {K V : Type} [DecidableEq K] (k : K) : List (K × V) → Option V
  | [] => none
  | (a, v) :: rest => if a = k then some v else odLookup k rest

/-- Stable insertion of one element into a descending-sorted list: the new,
originally-earlier element goes in front of every element of equal key, as in
Python's stable `sorted(..., reverse=True)`. -/
def insertDesc {α β : Type} [LinearOrder β] (key : α → β) (x : α) : List α → List α
  | [] => [x]
  | y :: ys => if key x < key y then y :: insertDesc key x ys else x :: y :: ys

/-- Stable descending sort by a key, the behaviour of Python's
`sorted(l, key=..., reverse=True)`. -/
def sortDesc {α β : Type} [LinearOrder β] (key : α → β) (l : List α) : List α :=
  l.foldr (insertDesc key) []

/-- The first element of maximal key, in list order.  This is the entry a
stable descending sort puts first; used to state what "ties broken by
insertion order" means. -/
def firstMaxBy {α β : Type} [LinearOrder β] (key : α → β) : List α → Option α
  | [] => none
  | x :: xs =>
    match firstMaxBy key xs with
    | none => some x
    | some y => some (if key x < key y then y else x)

/-- The scoring list built at gempro.py lines 632-634 / 657-659:
`(accession, reviewed + len(pdbs))` for each UniProt entry, in mapping
order. -/
def uRanker (uniprot : List (String × UniProtEntry)) : List (String × Nat) :=
  uniprot.map (fun p => (p.1, (if p.2.reviewed then 1 else 0) + p.2.pdbs.length))

/-- Outcome tag for one gene inside `set_representative_sequence` (which log
branch of gempro.py lines 606-673 ran). -/
inductive SeqOutcome
  | alreadySet
  | fromKegg
  | fromUniProt (acc : String)
  | unresolved
deriving DecidableEq

/-- The UniProt ranking procedure duplicated verbatim at gempro.py lines
629-644 and 655-673: rank accessions by `reviewed + len(pdbs)` with a stable
descending sort, take the first, and copy its present keys into the
representative.  The two `none` fallbacks are unreachable when the branch
guard `len(uniprot) > 0` holds, because the chosen key comes from the mapping
itself. -/
def uniprotBranch (sp : SequenceProp) : SequenceProp × SeqOutcome :=
  match (sortDesc (fun p => p.2) (uRanker sp.uniprot)).head? with
  | none => (sp, SeqOutcome.unresolved)
  | some best =>
    match odLookup best.1 sp.uniprot with
    | none => (sp, SeqOutcome.unresolved)
    | some e =>
      ({ sp with representative := updateFromUniProt sp.representative e },
       SeqOutcome.fromUniProt best.1)

/-- gempro.py line 650: `kegg_prop['uniprot_acc'] not in seq_prop['uniprot'].keys()`
(negated).  A `None` accession is never among the string keys. -/
def keggAccInUniprot (sp : SequenceProp) : Bool :=
  match sp.kegg.uniprot_acc with
  | some a => decide (a ∈ sp.uniprot.map Prod.fst)
  | none => false

/-- Per-gene body of `GEMPRO.set_representative_sequence` (gempro.py lines
599-673), restricted to its effect on the gene's annotation (the dataframe
bookkeeping rows are not modelled).  The `elif` ladder is reproduced
branch by branch. -/
def set_representative_sequence (sp : SequenceProp) : SequenceProp × SeqOutcome :=
  if sp.representative.seq_len > 0 then
    (sp, SeqOutcome.alreadySet)
  else if sp.kegg.seq_len > 0 ∧ sp.uniprot = [] then
    ({ sp with representative := updateFromKegg sp.kegg }, SeqOutcome.fromKegg)
  else if sp.kegg.seq_len = 0 ∧ sp.uniprot ≠ [] then
    uniprotBranch sp
  else if sp.kegg.seq_len > 0 ∧ sp.uniprot ≠ [] then
    if sp.kegg.pdbs ≠ [] ∧ keggAccInUniprot sp = false then
      ({ sp with representative := updateFromKegg sp.kegg }, SeqOutcome.fromKegg)
    else
      uniprotBranch sp
  else
    (sp, SeqOutcome.unresolved)

/-!
Structure-side data model.  `annotation['structure']['pdb']` is an
`OrderedDict` keyed by `(pdb_id, chain_id)`; `annotation['structure']['homology']`
is a dict keyed by model id; both become association lists in insertion
order.
-/

/-- One value of the `annotation['structure']['pdb']` mapping.  The union of
the dictionaries built by `map_uniprot_to_pdb` (gempro.py lines 731-744) and
`blast_seqs_to_pdb` (lines 835-845); keys written by only one of the two
ingestors are `Option` fields. -/
structure PdbEntry where
  pdb_id : String
  pdb_chain_id : String
  seq_coverage : Rat
  resolution : Option Rat
  release_date : Option String
  uniprot_acc : Option String
  experimental_method : Option String
  rank : Option Nat
  blast_score : Option Rat
deriving DecidableEq

/-- One value of the `annotation['structure']['homology']` mapping, with the
two fields the representative-structure resolver reads unconditionally
(gempro.py lines 1084-1085). -/
structure HomologyEntry where
  model_file : String
  seq_coverage : Rat
deriving DecidableEq

/-- A representative `structure_id`: either a `(pdb, chain)` pair (gempro.py
line 1054) or a homology model id (line 1087). -/
inductive StructId
  | pdbChain (pdb chain : String)
  | homologyModel (modelId : String)
deriving DecidableEq

/-- The `annotation['structure']['representative']` dictionary, as created by
the gene initializers (gempro.py lines 232-235). -/
structure RepStructRecord where
  structure_id : Option StructId
  seq_coverage : Rat
  original_pdb_file : Option String
  clean_pdb_file : Option String
deriving DecidableEq

/-- The whole `annotation['structure']` sub-record of a gene. -/
structure StructureProp where
  homology : List (String × HomologyEntry)
  pdb : List ((String × String) × PdbEntry)
  representative : RepStructRecord
deriving DecidableEq

/-- External collaborators used by `set_representative_structure`:
`ssbio.databases.pdb.download_structure` (`none` = the structure file cannot
be produced), `ssbio.structure.properties.residues.get_pdb_seqs` followed by
chain indexing (`none` = the chain is absent from the downloaded file),
`ssbio.structure.properties.quality.sequence_checker` with the tolerance
parameters applied (a pure pass/fail predicate on the reference and chain
sequences), and the `CleanPDB`/`PDBIOExt` file writers, which yield the
cleaned file names. -/
structure StructEnv where
  download : String → Option String
  chainSeq : String → String → Option String
  qc : String → String → Bool
  clean : String → String → String
  cleanHomology : String → String

/-- Uncaught Python exceptions escaping `set_representative_structure`: the
`try` block at gempro.py lines 1010-1069 catches only `StopIteration`, so a
missing representative sequence file (`open` at line 1016 /
`seq_file.split` at line 1013), an unproducible structure file (line 1027),
or a chain absent from the downloaded file (`chain_to_seq[chain]` at line
1034) abort the whole call. -/
inductive StructError
  | missingRefSeqFile
  | missingStructureFile (pdb : String)
  | missingChain (pdb chain : String)
deriving DecidableEq

/-- Outcome tag for one gene inside `set_representative_structure`. -/
inductive StructOutcome
  | noStructure
  | setPdb (pdb chain : String)
  | setHomology (modelId : String)
  | noRepresentative
deriving DecidableEq

/-- Keys of a gene's PDB mapping in insertion order (gempro.py line 1020). -/
def pdbKeys (sa : StructureProp) : List (String × String) :=
  sa.pdb.map Prod.fst

/-- First occurrences of a list of strings, keeping original order: the key
order of the `DefaultOrderedDict` built at gempro.py lines 1021-1023. -/
def firstOcc : List String → List String
  | [] => []
  | x :: xs => x :: (firstOcc xs).filter (fun y => decide (y ≠ x))

/-- All chains recorded for one PDB id, in insertion order. -/
def chainsOf (p : String) (l : List (String × String)) : List String :=
  (l.filter (fun x => decide (x.1 = p))).map Prod.snd

/-- The `DefaultOrderedDict(list)` grouping of gempro.py lines 1021-1023:
PDB ids in first-occurrence order, each paired with all of its chains in
insertion order. -/
def groupByPdb (l : List (String × String)) : List (String × List String) :=
  (firstOcc (l.map Prod.fst)).map (fun p => (p, chainsOf p l))

/-- Flatten a grouped candidate list back into `(pdb, chain)` pairs in the
order the nested loops of gempro.py lines 1025-1052 visit them. -/
def flattenGroups (gs : List (String × List String)) : List (String × String) :=
  gs.flatMap (fun g => g.2.map (fun c => (g.1, c)))

/-- The exact candidate evaluation order of the QC loop for a gene. -/
def evalOrder (sa : StructureProp) : List (String × String) :=
  flattenGroups (groupByPdb (pdbKeys sa))

/-- Whether the QC predicate of gempro.py lines 1037-1048 passes for one
`(pdb, chain)` candidate; `false` also when the chain sequence is missing
(that case additionally raises, which the search functions track
separately). -/
def qcPass (env : StructEnv) (refSeq : String) (pc : String × String) : Bool :=
  match env.chainSeq pc.1 pc.2 with
  | some s => env.qc refSeq s
  | none => false

/-- The prefix of a list up to and including its first element satisfying
`p` (the whole list when none does): the candidates on which the QC
predicate actually runs. -/
def takeToFirst {α : Type} (p : α → Bool) : List α → List α
  | [] => []
  | x :: xs => if p x then [x] else x :: takeToFirst p xs

/-- Result of the candidate search loop of gempro.py lines 1025-1069,
together with the list of candidates on which the QC predicate was invoked
(in order). -/
inductive PdbSearch
  | found (pdb chain pdbFile : String) (qcTrace : List (String × String))
  | exhausted (qcTrace : List (String × String))
  | fileError (pdb : String) (qcTrace : List (String × String))
  | chainError (pdb chain : String) (qcTrace : List (String × String))
deriving DecidableEq

/-- Inner chain loop (gempro.py lines 1033-1069) for one downloaded PDB:
returns the escape (`found` via the `raise StopIteration`, or the uncaught
`KeyError` of `chain_to_seq[chain]`) or the accumulated QC trace to carry to
the next PDB. -/
def chainLoop (env : StructEnv) (refSeq pdb pdbFile : String) :
    List String → List (String × String) → Sum PdbSearch (List (String × String))
  | [], tr => Sum.inr tr
  | c :: cs, tr =>
    match env.chainSeq pdb c with
    | none => Sum.inl (PdbSearch.chainError pdb c tr)
    | some s =>
      if env.qc refSeq s then
        Sum.inl (PdbSearch.found pdb c pdbFile (tr ++ [(pdb, c)]))
      else
        chainLoop env refSeq pdb pdbFile cs (tr ++ [(pdb, c)])

/-- Outer loop over grouped PDB ids (gempro.py lines 1025-1069): download the
structure file, then run the chain loop. -/
def pdbLoop (env : StructEnv) (refSeq : String) :
    List (String × List String) → List (String × String) → PdbSearch
  | [], tr => PdbSearch.exhausted tr
  | (pdb, chains) :: rest, tr =>
    match env.download pdb with
    | none => PdbSearch.fileError pdb tr
    | some pdbFile =>
      match chainLoop env refSeq pdb pdbFile chains tr with
      | Sum.inl r => r
      | Sum.inr tr2 => pdbLoop env refSeq rest tr2

/-- The homology branch of `set_representative_structure` (gempro.py lines
1078-1101): stable descending sort of the homology entries by the configured
sort key (`sorted(hm, key=lambda x: hm[x][sort_homology_by], reverse=True)`,
here abstracted as `sortKey` since the key is a configurable field name),
then the top model wins unconditionally.  The `none` fallback is unreachable
because the branch only runs when homology models exist. -/
def homologyPath (env : StructEnv) (sortKey : HomologyEntry → Rat)
    (sa : StructureProp) (qcTrace : List (String × String)) :
    Except StructError (StructureProp × StructOutcome × List (String × String)) :=
  match (sortDesc (fun p => sortKey p.2) sa.homology).head? with
  | none => Except.ok (sa, StructOutcome.noRepresentative, qcTrace)
  | some best =>
    Except.ok
      ({ sa with representative :=
          { structure_id := some (StructId.homologyModel best.1)
            seq_coverage := best.2.seq_coverage
            original_pdb_file := some best.2.model_file
            clean_pdb_file := some (env.cleanHomology best.2.model_file) } },
       StructOutcome.setHomology best.1, qcTrace)

/-- The PDB branch of `set_representative_structure` (gempro.py lines
1009-1075).  `refSeqFile` is the representative sequence read from the
gene's sequence file, `none` when the file reference is unset or the file
missing (in which case lines 1013-1016 raise an uncaught exception).  On QC
success the representative is filled from the matching PDB mapping entry and
the cleaned single-chain file (lines 1053-1068); the inner `none` is
unreachable because the found key comes from the mapping itself.  When the
loop exhausts, homology is used as fallback if present (lines 1073-1075). -/
def pdbPath (env : StructEnv) (sortKey : HomologyEntry → Rat)
    (refSeqFile : Option String) (sa : StructureProp) :
    Except StructError (StructureProp × StructOutcome × List (String × String)) :=
  match refSeqFile with
  | none => Except.error StructError.missingRefSeqFile
  | some refSeq =>
    match pdbLoop env refSeq (groupByPdb (pdbKeys sa)) [] with
    | PdbSearch.found p c pdbFile tr =>
      match odLookup (p, c) sa.pdb with
      | none => Except.ok (sa, StructOutcome.noRepresentative, tr)
      | some e =>
        Except.ok
          ({ sa with representative :=
              { structure_id := some (StructId.pdbChain p c)
                seq_coverage := e.seq_coverage
                original_pdb_file := some pdbFile
                clean_pdb_file := some (env.clean pdbFile c) } },
           StructOutcome.setPdb p c, tr)
    | PdbSearch.exhausted tr =>
      if sa.homology ≠ [] then homologyPath env sortKey sa tr
      else Except.ok (sa, StructOutcome.noRepresentative, tr)
    | PdbSearch.fileError p _ => Except.error (StructError.missingStructureFile p)
    | PdbSearch.chainError p c _ => Except.error (StructError.missingChain p c)

/-- Per-gene body of `GEMPRO.set_representative_structure` (gempro.py lines
972-1103).  The flag computation reproduces the `if`/`elif` ladders of lines
980-1003: with `always_use_homology` set, homology wins whenever present;
otherwise PDB wins whenever present.  The final fallthrough is unreachable
because the no-structure case returns earlier. -/
def set_representative_structure (env : StructEnv) (always_use_homology : Bool)
    (sortKey : HomologyEntry → Rat) (refSeqFile : Option String)
    (sa : StructureProp) :
    Except StructError (StructureProp × StructOutcome × List (String × String)) :=
  let has_homology := sa.homology ≠ []
  let has_pdb := sa.pdb ≠ []
  if ¬has_pdb ∧ ¬has_homology then
    Except.ok (sa, StructOutcome.noStructure, [])
  else
    let use_pdb := if always_use_homology then ¬has_homology ∧ has_pdb else has_pdb
    let use_homology := if always_use_homology then has_homology else has_homology ∧ ¬has_pdb
    if use_pdb then pdbPath env sortKey refSeqFile sa
    else if use_homology then homologyPath env sortKey sa []
    else Except.ok (sa, StructOutcome.noStructure, [])

/-- `(env.download p).getD ""`: the file name the search reports for `p` when
every needed download succeeds. -/
def dlOf (env : StructEnv) (p : String) : String :=
  (env.download p).getD ""

/-- Proof-side respecification of the nested search as a single scan over the
flattened candidate order; `pdbLoop` agrees with it whenever all downloads
succeed (`pdbLoop_scan`). -/
def candidateScan (env : StructEnv) (refSeq : String) :
    List (String × String) → List (String × String) → PdbSearch
  | [], tr => PdbSearch.exhausted tr
  | pc :: rest, tr =>
    match env.chainSeq pc.1 pc.2 with
    | none => PdbSearch.chainError pc.1 pc.2 tr
    | some s =>
      if env.qc refSeq s then
        PdbSearch.found pc.1 pc.2 (dlOf env pc.1) (tr ++ [pc])
      else
        candidateScan env refSeq rest (tr ++ [pc])

/-!
Structure ingestion: the `(pdb, chain)`-keyed merges of `map_uniprot_to_pdb`
and `blast_seqs_to_pdb`, and the manual homology-model ingestor.
-/

/-- `d[k] = v` on an insertion-ordered dictionary: replace in place when the
key exists, append otherwise. -/
def odSet {K V : Type} [DecidableEq K] (m : List (K × V)) (k : K) (v : V) :
    List (K × V) :=
  if k ∈ m.map Prod.fst then
    m.map (fun kv => if kv.1 = k then (k, v) else kv)
  else
    m ++ [(k, v)]

/-- `d.update(other)` on insertion-ordered dictionaries: set each binding of
`other` in turn. -/
def odUpdate {K V : Type} [DecidableEq K] (m other : List (K × V)) :
    List (K × V) :=
  other.foldl (fun acc kv => odSet acc kv.1 kv.2) m

/-- The merge of `map_uniprot_to_pdb` (gempro.py lines 755-765): keep only
the existing `(pdb, chain)` entries whose key is NOT among the newly ranked
ones, and append them after the new entries — i.e. the new ranked entry
replaces an existing entry at the same key. -/
def map_uniprot_to_pdb_merge
    (existing newEntries : List ((String × String) × PdbEntry)) :
    List ((String × String) × PdbEntry) :=
  odUpdate newEntries
    (existing.filter (fun kv => decide (kv.1 ∉ newEntries.map Prod.fst)))

/-- The merge of `blast_seqs_to_pdb` (gempro.py lines 855-861): drop the new
BLAST entries whose `(pdb, chain)` key already exists, and append the rest
after the existing entries. -/
def blast_seqs_to_pdb_merge
    (existing newEntries : List ((String × String) × PdbEntry)) :
    List ((String × String) × PdbEntry) :=
  odUpdate existing
    (newEntries.filter (fun kv => decide (kv.1 ∉ existing.map Prod.fst)))

/-- One entry of the manual homology-model input dictionary of
`manual_homology_models`: `model_file` is `Option` because the required key
may be missing (which is exactly what the ingestor checks), and the other
fields are free-form metadata. -/
structure ManualHomologyInput where
  model_file : Option String
  seq_coverage : Option Rat
deriving DecidableEq

/-- Per-gene body of `GEMPRO.manual_homology_models` (gempro.py lines
894-907), as an effect trace: for each input entry in order, check
`'model_file' in hdict`, raising `KeyError` (the returned `Option String`
holds the offending model id) before any effect for that entry; otherwise
copy the model file (first component) and store the entry in the gene's
homology annotation (second component). -/
def manual_homology_models_gene :
    List (String × ManualHomologyInput) →
    List (String × String) × List (String × ManualHomologyInput) × Option String
  | [] => ([], [], none)
  | (hid, h) :: rest =>
    match h.model_file with
    | none => ([], [], some hid)
    | some f =>
      let r := manual_homology_models_gene rest
      ((hid, f) :: r.1, (hid, h) :: r.2.1, r.2.2)

/-!
Gene initialization: the `genes` setter and `add_genes_by_id` (gempro.py
lines 197-298).
-/

/-- The default `annotation['sequence']` dictionary written for every fresh
gene (gempro.py lines 216-228 / 274-286). -/
def defaultSequenceProp : SequenceProp :=
  { kegg :=
      { uniprot_acc := none, kegg_id := none, seq_len := 0, pdbs := []
        seq_file := none, metadata_file := none }
    uniprot := []
    representative :=
      { uniprot_acc := none, kegg_id := KeggIdVal.scalar none, seq_len := 0
        pdbs := [], seq_file := none, metadata_file := none } }

/-- The default `annotation['structure']` dictionary written for every fresh
gene (gempro.py lines 229-235 / 287-292). -/
def defaultStructureProp : StructureProp :=
  { homology := []
    pdb := []
    representative :=
      { structure_id := none, seq_coverage := 0, original_pdb_file := none
        clean_pdb_file := none } }

/-- A freshly created gene's annotation state. -/
structure GeneProp where
  sequence : SequenceProp
  struct : StructureProp
deriving DecidableEq

/-- Annotation of a gene as created by the initializers. -/
def freshGeneProp : GeneProp :=
  { sequence := defaultSequenceProp, struct := defaultStructureProp }

/-- The `genes` setter on a list of gene ID strings (gempro.py lines
208-237): `list(set(genes_list))` collapses duplicate IDs (CPython's set
order is unspecified; we keep first occurrences, which the claimed
properties do not distinguish), and each new `Gene` receives the default
annotation dictionaries. -/
def genes_setter (ids : List String) : List (String × GeneProp) :=
  (ids.dedup).map (fun i => (i, freshGeneProp))

/-- `GEMPRO.add_genes_by_id` (gempro.py lines 263-296): build fresh genes
from the de-duplicated ID list, then `DictList.union` appends only those
whose ID is not already present. -/
def add_genes_by_id (existing : List (String × GeneProp)) (ids : List String) :
    List (String × GeneProp) :=
  existing ++
    (genes_setter ids).filter (fun g => decide (g.1 ∉ existing.map Prod.fst))

/-!
Concrete sample states used to evaluate the theorems on explicit inputs.
Coverage / resolution values are whole numbers so that all evaluations stay
inside kernel-reducible rational arithmetic.
-/

/-- Sample UniProt entry: unreviewed, one mapped PDB (score 1). -/
def uE1 : UniProtEntry :=
  { reviewed := false, pdbs := ["1abc"], kegg_id := none, uniprot_acc := some "P1"
    seq_len := some 100, seq_file := some "P1.fasta", metadata_file := some "P1.txt" }

/-- Sample UniProt entry: reviewed, no mapped PDB (score 1, tied with `uE1`). -/
def uE2 : UniProtEntry :=
  { reviewed := true, pdbs := [], kegg_id := none, uniprot_acc := some "P2"
    seq_len := some 90, seq_file := some "P2.fasta", metadata_file := some "P2.txt" }

/-- Sample UniProt entry: reviewed with one mapped PDB (score 2). -/
def uE3 : UniProtEntry :=
  { reviewed := true, pdbs := ["2xyz"], kegg_id := some ["eco:b0003"], uniprot_acc := some "P3"
    seq_len := some 80, seq_file := some "P3.fasta", metadata_file := some "P3.txt" }

/-- Sample KEGG record with an associated PDB and an accession `P9` that the
UniProt mappings below do not contain. -/
def keggFull : KeggRecord :=
  { uniprot_acc := some "P9", kegg_id := some "eco:b0001", seq_len := 300
    pdbs := ["3foo"], seq_file := some "b0001.faa", metadata_file := some "b0001.kegg" }

/-- Gene with a finalized representative sequence. -/
def sAlready : SequenceProp :=
  { defaultSequenceProp with
      representative := { defaultSequenceProp.representative with seq_len := 300 } }

/-- Gene with UniProt entries only, the first two tied on score. -/
def sTie : SequenceProp :=
  { defaultSequenceProp with uniprot := [("P1", uE1), ("P2", uE2)] }

/-- Gene with both KEGG and UniProt data, KEGG accession unknown to UniProt. -/
def sBothKegg : SequenceProp :=
  { defaultSequenceProp with kegg := keggFull
                             uniprot := [("P1", uE1), ("P2", uE2), ("P3", uE3)] }

/-- Gene with both KEGG and UniProt data, KEGG accession among the UniProt
keys. -/
def sBothUni : SequenceProp :=
  { sBothKegg with kegg := { keggFull with uniprot_acc := some "P2" } }

/-- Sample ranked-PDB entry for `(p, c)` with a given rank. -/
def samplePdbEntry (p c : String) (r : Nat) : PdbEntry :=
  { pdb_id := p, pdb_chain_id := c, seq_coverage := 9, resolution := some 2
    release_date := some "2001-01-01", uniprot_acc := some "P3"
    experimental_method := some "X-ray", rank := some r, blast_score := none }

/-- Sample BLAST entry at the same key as `samplePdbEntry "1abc" "A" 1` but
with different field values. -/
def sampleBlastEntry : PdbEntry :=
  { pdb_id := "1abc", pdb_chain_id := "A", seq_coverage := 7, resolution := some 3
    release_date := some "2003-03-03", uniprot_acc := none
    experimental_method := none, rank := none, blast_score := some 120 }

/-- Gene structure state with three ranked PDB candidates and two homology
models of different coverage. -/
def saPdbHom : StructureProp :=
  { homology := [("hmLow", { model_file := "low.pdb", seq_coverage := 1 }),
                 ("hmHigh", { model_file := "high.pdb", seq_coverage := 2 })]
    pdb := [(("1aaa", "A"), samplePdbEntry "1aaa" "A" 1),
            (("1bbb", "A"), samplePdbEntry "1bbb" "A" 2),
            (("1ccc", "B"), samplePdbEntry "1ccc" "B" 3)]
    representative := defaultStructureProp.representative }

/-- Structure state with PDB candidates only. -/
def saPdbOnly : StructureProp := { saPdbHom with homology := [] }

/-- Structure state with homology models only. -/
def saHomOnly : StructureProp := { saPdbHom with pdb := [] }

/-- The default homology sort key of `set_representative_structure`
(`sort_homology_by='seq_coverage'`). -/
def covKey (h : HomologyEntry) : Rat := h.seq_coverage

/-- Environment where every download and chain lookup succeeds and exactly
the chain sequence of `1bbb`/`A` passes QC. -/
def envSecondPasses : StructEnv :=
  { download := fun p => some (p ++ ".pdb")
    chainSeq := fun p c => some (p ++ "_" ++ c)
    qc := fun _ s => s == "1bbb_A"
    clean := fun f c => f ++ "." ++ c ++ ".clean"
    cleanHomology := fun f => f ++ ".clean" }

/-- Environment where no candidate passes QC. -/
def envNoPass : StructEnv := { envSecondPasses with qc := fun _ _ => false }

/-- Environment where the chains of `1aaa` are absent from its downloaded
structure file. -/
def envChainMiss : StructEnv :=
  { envSecondPasses with
      chainSeq := fun p c => if p == "1aaa" then none else some (p ++ "_" ++ c) }

/-- Sample manual homology-model inputs: the second entry lacks the
required `model_file` key. -/
def manualGood : ManualHomologyInput := { model_file := some "a.pdb", seq_coverage := some 1 }

/-- Manual entry missing the required `model_file` key. -/
def manualBad : ManualHomologyInput := { model_file := none, seq_coverage := some 1 }

/-!
Theorems.  First the characterization of the stable descending sort used by
both resolvers, then the claims.
-/

theorem insertDesc_head {α β : Type} [LinearOrder β] (key : α → β) (x y : α)
    (ys : List α) :
    (insertDesc key x (y :: ys)).head? = some (if key x < key y then y else x) := by
  by_cases h : key x < key y <;> simp [insertDesc, h]

theorem sortDesc_head {α β : Type} [LinearOrder β] (key : α → β) (l : List α) :
    (sortDesc key l).head? = firstMaxBy key l := by
  induction l with
  | nil => rfl
  | cons x xs ih =>
    have hs : sortDesc key (x :: xs) = insertDesc key x (sortDesc key xs) := rfl
    rw [hs]
    cases hxs : sortDesc key xs with
    | nil =>
      have h0 : firstMaxBy key xs = none := by rw [← ih, hxs]; rfl
      simp [insertDesc, firstMaxBy, h0]
    | cons y ys =>
      have hy : firstMaxBy key xs = some y := by rw [← ih, hxs]; rfl
      rw [insertDesc_head]
      simp [firstMaxBy, hy]

theorem firstMaxBy_eq_none {α β : Type} [LinearOrder β] (key : α → β)
    (l : List α) : firstMaxBy key l = none ↔ l = [] := by
  cases l with
  | nil => simp [firstMaxBy]
  | cons x xs => cases h : firstMaxBy key xs <;> simp [firstMaxBy, h]

theorem firstMaxBy_le {α β : Type} [LinearOrder β] (key : α → β) :
    ∀ {l : List α} {y : α}, firstMaxBy key l = some y →
      ∀ x ∈ l, key x ≤ key y := by
  intro l
  induction l with
  | nil => intro y h; simp [firstMaxBy] at h
  | cons x xs ih =>
    intro y h z hz
    cases hxs : firstMaxBy key xs with
    | none =>
      have hx : x = y := by simpa [firstMaxBy, hxs] using h
      have hnil : xs = [] := (firstMaxBy_eq_none key xs).mp hxs
      subst hx
      subst hnil
      have : z = x := by simpa using hz
      subst this
      exact le_refl _
    | some w =>
      simp only [firstMaxBy, hxs] at h
      by_cases hlt : key x < key w
      · have hyw : w = y := by simpa [hlt] using h
        subst hyw
        rcases List.mem_cons.mp hz with hzx | hzs
        · subst hzx; exact le_of_lt hlt
        · exact ih hxs z hzs
      · have hyx : x = y := by simpa [hlt] using h
        subst hyx
        rcases List.mem_cons.mp hz with hzx | hzs
        · subst hzx; exact le_refl _
        · exact le_trans (ih hxs z hzs) (not_lt.mp hlt)

theorem firstMaxBy_decomp {α β : Type} [LinearOrder β] (key : α → β) :
    ∀ {l : List α} {y : α}, firstMaxBy key l = some y →
      ∃ l₁ l₂, l = l₁ ++ y :: l₂ ∧ ∀ x ∈ l₁, key x < key y := by
  intro l
  induction l with
  | nil => intro y h; simp [firstMaxBy] at h
  | cons x xs ih =>
    intro y h
    cases hxs : firstMaxBy key xs with
    | none =>
      have hx : x = y := by simpa [firstMaxBy, hxs] using h
      subst hx
      exact ⟨[], xs, rfl, by simp⟩
    | some w =>
      simp only [firstMaxBy, hxs] at h
      by_cases hlt : key x < key w
      · have hyw : w = y := by simpa [hlt] using h
        subst hyw
        obtain ⟨a, b, hab, hlta⟩ := ih hxs
        refine ⟨x :: a, b, by rw [hab]; rfl, ?_⟩
        intro z hz
        rcases List.mem_cons.mp hz with hzx | hza
        · subst hzx; exact hlt
        · exact hlta z hza
      · have hyx : x = y := by simpa [hlt] using h
        subst hyx
        exact ⟨[], xs, rfl, by simp⟩

/-- C2: once a gene's representative sequence is finalized
(`representative['seq_len'] > 0`, however it was set — including by a manual
override, which writes the representative directly), a call of
`set_representative_sequence` leaves the gene's annotation unchanged and only
reports `alreadySet`; consequently a second call in succession is again a
no-op, and a manually-set representative is never overwritten. -/
theorem set_representative_sequence_already_set_noop
    (sp : SequenceProp) (h : sp.representative.seq_len > 0) :
    set_representative_sequence sp = (sp, SeqOutcome.alreadySet) ∧
    set_representative_sequence (set_representative_sequence sp).1 =
      ((set_representative_sequence sp).1, SeqOutcome.alreadySet) := by
  have h1 : set_representative_sequence sp = (sp, SeqOutcome.alreadySet) := by
    unfold set_representative_sequence
    rw [if_pos h]
  refine ⟨h1, ?_⟩
  rw [h1]
  exact h1

theorem set_representative_sequence_already_set_noop_witness :
    set_representative_sequence sAlready = (sAlready, SeqOutcome.alreadySet) ∧
    set_representative_sequence (set_representative_sequence sAlready).1 =
      ((set_representative_sequence sAlready).1, SeqOutcome.alreadySet) :=
  set_representative_sequence_already_set_noop sAlready (by decide)

/-- C3: for a gene with both a KEGG annotation (`seq_len > 0`) and UniProt
entries and no finalized representative, the KEGG record wins exactly when it
has at least one associated PDB and its UniProt accession is not among the
gene's UniProt keys; otherwise the gene goes through the identical UniProt
ranking procedure used in the UniProt-only branch (`uniprotBranch`). -/
theorem set_representative_sequence_kegg_vs_uniprot
    (sp : SequenceProp)
    (h0 : sp.representative.seq_len = 0)
    (h1 : sp.kegg.seq_len > 0)
    (h2 : sp.uniprot ≠ []) :
    (sp.kegg.pdbs ≠ [] ∧ keggAccInUniprot sp = false →
      set_representative_sequence sp =
        ({ sp with representative := updateFromKegg sp.kegg }, SeqOutcome.fromKegg)) ∧
    (sp.kegg.pdbs = [] ∨ keggAccInUniprot sp = true →
      set_representative_sequence sp = uniprotBranch sp) := by
  have hstep : set_representative_sequence sp =
      if sp.kegg.pdbs ≠ [] ∧ keggAccInUniprot sp = false then
        ({ sp with representative := updateFromKegg sp.kegg }, SeqOutcome.fromKegg)
      else uniprotBranch sp := by
    unfold set_representative_sequence
    rw [if_neg (by omega), if_neg (fun hc => h2 hc.2),
        if_neg (fun hc => absurd hc.1 (by omega)), if_pos ⟨h1, h2⟩]
  constructor
  · intro hc
    rw [hstep, if_pos hc]
  · intro hc
    rw [hstep, if_neg ?_]
    rintro ⟨hne, hfalse⟩
    rcases hc with hc | hc
    · exact hne hc
    · rw [hc] at hfalse
      cases hfalse

theorem set_representative_sequence_kegg_vs_uniprot_witness :
    set_representative_sequence sBothKegg =
      ({ sBothKegg with representative := updateFromKegg sBothKegg.kegg },
       SeqOutcome.fromKegg) ∧
    set_representative_sequence sBothUni = uniprotBranch sBothUni :=
  ⟨(set_representative_sequence_kegg_vs_uniprot sBothKegg (by decide) (by decide)
      (by decide)).1 (by exact ⟨by decide, by decide⟩),
   (set_representative_sequence_kegg_vs_uniprot sBothUni (by decide) (by decide)
      (by decide)).2 (Or.inr (by decide))⟩

/-- C4: for a gene with no KEGG annotation, at least one UniProt entry and no
finalized representative, `set_representative_sequence` copies the entry whose
accession has maximal score `(1 if reviewed else 0) + len(pdbs)` into the
representative; among equal scores the first accession in mapping
(insertion) order wins: the scoring list splits as `l₁ ++ (u, s) :: l₂` with
every score in `l₁` strictly below `s`.  The selection is a pure function of
the annotation state, so repeated calls on the same state pick the same
entry. -/
theorem set_representative_sequence_uniprot_ranking
    (sp : SequenceProp) (u : String) (s : Nat) (e : UniProtEntry)
    (h0 : sp.representative.seq_len = 0)
    (h1 : sp.kegg.seq_len = 0)
    (h2 : sp.uniprot ≠ [])
    (hmax : firstMaxBy (fun q => q.2) (uRanker sp.uniprot) = some (u, s))
    (hlook : odLookup u sp.uniprot = some e) :
    set_representative_sequence sp =
      ({ sp with representative := updateFromUniProt sp.representative e },
       SeqOutcome.fromUniProt u) ∧
    (∀ q ∈ uRanker sp.uniprot, q.2 ≤ s) ∧
    ∃ l₁ l₂, uRanker sp.uniprot = l₁ ++ (u, s) :: l₂ ∧ ∀ q ∈ l₁, q.2 < s := by
  refine ⟨?_, fun q hq => firstMaxBy_le _ hmax q hq, firstMaxBy_decomp _ hmax⟩
  have hbranch : set_representative_sequence sp = uniprotBranch sp := by
    unfold set_representative_sequence
    rw [if_neg (by omega), if_neg (fun hc => absurd hc.1 (by omega)),
        if_pos ⟨h1, h2⟩]
  have hhead : (sortDesc (fun q : String × Nat => q.2) (uRanker sp.uniprot)).head? =
      some (u, s) := by
    rw [sortDesc_head]
    exact hmax
  rw [hbranch]
  unfold uniprotBranch
  rw [hhead]
  simp only [hlook]

theorem set_representative_sequence_uniprot_ranking_witness :
    set_representative_sequence sTie =
      ({ sTie with representative := updateFromUniProt sTie.representative uE1 },
       SeqOutcome.fromUniProt "P1") :=
  (set_representative_sequence_uniprot_ranking sTie "P1" 1 uE1 (by decide) (by decide)
    (by decide) (by decide) (by decide)).1

/-!
Structure-side search lemmas: the nested download/chain loops agree with a
single scan over the flattened candidate order whenever all downloads
succeed, and the scan is characterized by the first passing candidate.
-/

theorem flattenGroups_cons (g : String × List String)
    (gs : List (String × List String)) :
    flattenGroups (g :: gs) = g.2.map (fun c => (g.1, c)) ++ flattenGroups gs := by
  simp [flattenGroups]

theorem chainLoop_scan (env : StructEnv) (refSeq q : String) :
    ∀ (cs : List String) (tail tr : List (String × String)),
      candidateScan env refSeq (cs.map (fun c => (q, c)) ++ tail) tr =
        match chainLoop env refSeq q (dlOf env q) cs tr with
        | Sum.inl r => r
        | Sum.inr tr2 => candidateScan env refSeq tail tr2 := by
  intro cs
  induction cs with
  | nil => intro tail tr; rfl
  | cons c cs ih =>
    intro tail tr
    cases hcs : env.chainSeq q c with
    | none => simp [candidateScan, chainLoop, hcs]
    | some s =>
      cases hqc : env.qc refSeq s with
      | true => simp [candidateScan, chainLoop, hcs, hqc]
      | false => simp [candidateScan, chainLoop, hcs, hqc, ih]

theorem pdbLoop_scan (env : StructEnv) (refSeq : String) :
    ∀ (groups : List (String × List String)) (tr : List (String × String)),
      (∀ g ∈ groups, (env.download g.1).isSome = true) →
      pdbLoop env refSeq groups tr =
        candidateScan env refSeq (flattenGroups groups) tr := by
  intro groups
  induction groups with
  | nil => intro tr _; rfl
  | cons g gs ih =>
    intro tr hdl
    obtain ⟨f, hf⟩ := Option.isSome_iff_exists.mp (hdl g (List.mem_cons_self g gs))
    have hdlf : dlOf env g.1 = f := by simp [dlOf, hf]
    obtain ⟨q, cs⟩ := g
    rw [flattenGroups_cons, chainLoop_scan env refSeq q cs (flattenGroups gs) tr,
        hdlf]
    cases hcl : chainLoop env refSeq q f cs tr with
    | inl r => simp [pdbLoop, hf, hcl]
    | inr tr2 =>
      simp only [pdbLoop, hf, hcl]
      exact ih tr2 (fun g' hg' => hdl g' (List.mem_cons_of_mem _ hg'))

theorem candidateScan_found (env : StructEnv) (refSeq : String) :
    ∀ (l : List (String × String)) (tr : List (String × String)) (p c : String),
      (∀ q ∈ l, (env.chainSeq q.1 q.2).isSome = true) →
      List.find? (qcPass env refSeq) l = some (p, c) →
      candidateScan env refSeq l tr =
        PdbSearch.found p c (dlOf env p)
          (tr ++ takeToFirst (qcPass env refSeq) l) := by
  intro l
  induction l with
  | nil => intro tr p c _ hfind; simp at hfind
  | cons pc rest ih =>
    intro tr p c hcs hfind
    obtain ⟨s, hs⟩ := Option.isSome_iff_exists.mp (hcs pc (List.mem_cons_self _ _))
    cases hqc : env.qc refSeq s with
    | true =>
      have hqp : qcPass env refSeq pc = true := by simp [qcPass, hs, hqc]
      have hpc : pc = (p, c) := by
        have h1 : some pc = some (p, c) := by
          rw [← hfind, List.find?_cons, hqp]
        exact Option.some.inj h1
      subst hpc
      simp [candidateScan, hs, hqc, takeToFirst, hqp]
    | false =>
      have hqp : qcPass env refSeq pc = false := by simp [qcPass, hs, hqc]
      have hfind' : List.find? (qcPass env refSeq) rest = some (p, c) := by
        rw [← hfind, List.find?_cons, hqp]
      have hrec := ih (tr ++ [pc]) p c
        (fun q hq => hcs q (List.mem_cons_of_mem _ hq)) hfind'
      simp [candidateScan, hs, hqc, hrec, takeToFirst, hqp]

theorem candidateScan_exhausted (env : StructEnv) (refSeq : String) :
    ∀ (l : List (String × String)) (tr : List (String × String)),
      (∀ q ∈ l, (env.chainSeq q.1 q.2).isSome = true) →
      List.find? (qcPass env refSeq) l = none →
      candidateScan env refSeq l tr = PdbSearch.exhausted (tr ++ l) := by
  intro l
  induction l with
  | nil => intro tr _ _; simp [candidateScan]
  | cons pc rest ih =>
    intro tr hcs hfind
    obtain ⟨s, hs⟩ := Option.isSome_iff_exists.mp (hcs pc (List.mem_cons_self _ _))
    have hall := List.find?_eq_none.mp hfind
    have hqp : qcPass env refSeq pc = false := by
      have := hall pc (List.mem_cons_self _ _)
      simpa using this
    have hqc : env.qc refSeq s = false := by
      rw [qcPass, hs] at hqp
      exact hqp
    have hfind' : List.find? (qcPass env refSeq) rest = none :=
      List.find?_eq_none.mpr (fun x hx => hall x (List.mem_cons_of_mem _ hx))
    have hrec := ih (tr ++ [pc])
      (fun q hq => hcs q (List.mem_cons_of_mem _ hq)) hfind'
    simp [candidateScan, hs, hqc, hrec]

theorem candidateScan_chainError (env : StructEnv) (refSeq : String) :
    ∀ (l₁ : List (String × String)) (pc : String × String)
      (l₂ tr : List (String × String)),
      (∀ q ∈ l₁, (env.chainSeq q.1 q.2).isSome = true ∧
        qcPass env refSeq q = false) →
      env.chainSeq pc.1 pc.2 = none →
      candidateScan env refSeq (l₁ ++ pc :: l₂) tr =
        PdbSearch.chainError pc.1 pc.2 (tr ++ l₁) := by
  intro l₁
  induction l₁ with
  | nil => intro pc l₂ tr _ hmiss; simp [candidateScan, hmiss]
  | cons q l₁ ih =>
    intro pc l₂ tr hpre hmiss
    obtain ⟨hqs, hqf⟩ := hpre q (List.mem_cons_self _ _)
    obtain ⟨s, hs⟩ := Option.isSome_iff_exists.mp hqs
    have hqc : env.qc refSeq s = false := by
      rw [qcPass, hs] at hqf
      exact hqf
    have hrec := ih pc l₂ (tr ++ [q])
      (fun z hz => hpre z (List.mem_cons_of_mem _ hz)) hmiss
    simp [candidateScan, hs, hqc, hrec]

theorem mem_firstOcc {y : String} : ∀ {l : List String}, y ∈ firstOcc l ↔ y ∈ l := by
  intro l
  induction l with
  | nil => simp [firstOcc]
  | cons x xs ih =>
    by_cases hyx : y = x
    · simp [firstOcc, hyx]
    · simp [firstOcc, List.mem_filter, ih, hyx]

theorem groupByPdb_pdbId_mem {l : List (String × String)}
    {g : String × List String} (hg : g ∈ groupByPdb l) : ∃ q ∈ l, q.1 = g.1 := by
  unfold groupByPdb at hg
  obtain ⟨p, hp, hpe⟩ := List.mem_map.mp hg
  have hp' : p ∈ l.map Prod.fst := mem_firstOcc.mp hp
  obtain ⟨q, hq, hq1⟩ := List.mem_map.mp hp'
  refine ⟨q, hq, ?_⟩
  rw [hq1, ← hpe]

/-!
Branch-selection reductions for `set_representative_structure`.
-/

theorem srs_no_structures (env : StructEnv) (sortKey : HomologyEntry → Rat)
    (rf : Option String) (sa : StructureProp) (h1 : sa.pdb = [])
    (h2 : sa.homology = []) (always : Bool) :
    set_representative_structure env always sortKey rf sa =
      Except.ok (sa, StructOutcome.noStructure, []) := by
  simp [set_representative_structure, h1, h2]

theorem srs_use_pdb (env : StructEnv) (sortKey : HomologyEntry → Rat)
    (rf : Option String) (sa : StructureProp) (h : sa.pdb ≠ []) :
    set_representative_structure env false sortKey rf sa =
      pdbPath env sortKey rf sa := by
  simp [set_representative_structure, h]

theorem srs_false_homology_only (env : StructEnv) (sortKey : HomologyEntry → Rat)
    (rf : Option String) (sa : StructureProp) (h1 : sa.pdb = [])
    (h2 : sa.homology ≠ []) :
    set_representative_structure env false sortKey rf sa =
      homologyPath env sortKey sa [] := by
  simp [set_representative_structure, h1, h2]

theorem srs_always_homology (env : StructEnv) (sortKey : HomologyEntry → Rat)
    (rf : Option String) (sa : StructureProp) (h : sa.homology ≠ []) :
    set_representative_structure env true sortKey rf sa =
      homologyPath env sortKey sa [] := by
  simp [set_representative_structure, h]

theorem srs_always_pdb_only (env : StructEnv) (sortKey : HomologyEntry → Rat)
    (rf : Option String) (sa : StructureProp) (h1 : sa.homology = [])
    (h2 : sa.pdb ≠ []) :
    set_representative_structure env true sortKey rf sa =
      pdbPath env sortKey rf sa := by
  simp [set_representative_structure, h1, h2]

/-- C1: for a gene resolved via the PDB path, the candidates are evaluated
grouped by structure id in insertion order, chains in insertion order within
a structure; the representative is set from the first `(pdb, chain)`
candidate whose QC predicate passes (with that candidate's coverage and the
cleaned single-chain file), and the QC trace is exactly the prefix of the
evaluation order up to and including that first success — no later candidate
is QC-checked. -/
theorem set_representative_structure_first_qc_pass_wins
    (env : StructEnv) (sortKey : HomologyEntry → Rat) (sa : StructureProp)
    (refSeq p c f : String) (e : PdbEntry)
    (hpdb : sa.pdb ≠ [])
    (hdl : ∀ q ∈ sa.pdb.map Prod.fst, (env.download q.1).isSome = true)
    (hcs : ∀ q ∈ evalOrder sa, (env.chainSeq q.1 q.2).isSome = true)
    (hfind : List.find? (qcPass env refSeq) (evalOrder sa) = some (p, c))
    (he : odLookup (p, c) sa.pdb = some e)
    (hf : env.download p = some f) :
    set_representative_structure env false sortKey (some refSeq) sa =
      Except.ok
        ({ sa with representative :=
            { structure_id := some (StructId.pdbChain p c)
              seq_coverage := e.seq_coverage
              original_pdb_file := some f
              clean_pdb_file := some (env.clean f c) } },
         StructOutcome.setPdb p c,
         takeToFirst (qcPass env refSeq) (evalOrder sa)) := by
  rw [srs_use_pdb env sortKey (some refSeq) sa hpdb]
  simp only [pdbPath]
  have hgd : ∀ g ∈ groupByPdb (pdbKeys sa), (env.download g.1).isSome = true := by
    intro g hg
    obtain ⟨q, hq, hq1⟩ := groupByPdb_pdbId_mem hg
    rw [← hq1]
    exact hdl q hq
  rw [pdbLoop_scan env refSeq (groupByPdb (pdbKeys sa)) [] hgd,
      show flattenGroups (groupByPdb (pdbKeys sa)) = evalOrder sa from rfl,
      candidateScan_found env refSeq (evalOrder sa) [] p c hcs hfind,
      show dlOf env p = f by simp [dlOf, hf]]
  simp [he]

theorem set_representative_structure_first_qc_pass_wins_witness :
    set_representative_structure envSecondPasses false covKey (some "REF") saPdbHom =
      Except.ok
        ({ saPdbHom with representative :=
            { structure_id := some (StructId.pdbChain "1bbb" "A")
              seq_coverage := (samplePdbEntry "1bbb" "A" 2).seq_coverage
              original_pdb_file := some "1bbb.pdb"
              clean_pdb_file := some (envSecondPasses.clean "1bbb.pdb" "A") } },
         StructOutcome.setPdb "1bbb" "A",
         takeToFirst (qcPass envSecondPasses "REF") (evalOrder saPdbHom)) :=
  set_representative_structure_first_qc_pass_wins envSecondPasses covKey saPdbHom
    "REF" "1bbb" "A" "1bbb.pdb" (samplePdbEntry "1bbb" "A" 2)
    (by decide) (by decide) (by decide) (by decide) (by decide) (by decide)

/-- C6: for a gene with both PDB and homology candidates, resolved with
`always_use_homology=False`, when no PDB candidate passes QC the resolver
falls back to the homology path: the representative becomes the homology
model that a stable descending sort on the configured sort key ranks first
(its key is maximal over all models), with no QC gate — the QC trace contains
exactly the PDB candidates. -/
theorem set_representative_structure_homology_fallback
    (env : StructEnv) (sortKey : HomologyEntry → Rat) (sa : StructureProp)
    (refSeq hid : String) (hm : HomologyEntry)
    (hpdb : sa.pdb ≠ []) (hhom : sa.homology ≠ [])
    (hdl : ∀ q ∈ sa.pdb.map Prod.fst, (env.download q.1).isSome = true)
    (hcs : ∀ q ∈ evalOrder sa, (env.chainSeq q.1 q.2).isSome = true)
    (hfail : ∀ q ∈ evalOrder sa, qcPass env refSeq q = false)
    (htop : (sortDesc (fun p => sortKey p.2) sa.homology).head? = some (hid, hm)) :
    set_representative_structure env false sortKey (some refSeq) sa =
      Except.ok
        ({ sa with representative :=
            { structure_id := some (StructId.homologyModel hid)
              seq_coverage := hm.seq_coverage
              original_pdb_file := some hm.model_file
              clean_pdb_file := some (env.cleanHomology hm.model_file) } },
         StructOutcome.setHomology hid, evalOrder sa) ∧
    ∀ q ∈ sa.homology, sortKey q.2 ≤ sortKey hm := by
  constructor
  · rw [srs_use_pdb env sortKey (some refSeq) sa hpdb]
    simp only [pdbPath]
    have hgd : ∀ g ∈ groupByPdb (pdbKeys sa), (env.download g.1).isSome = true := by
      intro g hg
      obtain ⟨q, hq, hq1⟩ := groupByPdb_pdbId_mem hg
      rw [← hq1]
      exact hdl q hq
    have hfn : List.find? (qcPass env refSeq) (evalOrder sa) = none :=
      List.find?_eq_none.mpr (fun x hx => by simp [hfail x hx])
    rw [pdbLoop_scan env refSeq (groupByPdb (pdbKeys sa)) [] hgd,
        show flattenGroups (groupByPdb (pdbKeys sa)) = evalOrder sa from rfl,
        candidateScan_exhausted env refSeq (evalOrder sa) [] hcs hfn]
    simp [hhom, homologyPath, htop]
  · have hfm : firstMaxBy (fun p => sortKey p.2) sa.homology = some (hid, hm) := by
      rw [← sortDesc_head]
      exact htop
    exact fun q hq => firstMaxBy_le _ hfm q hq

theorem set_representative_structure_homology_fallback_witness :
    set_representative_structure envNoPass false covKey (some "REF") saPdbHom =
      Except.ok
        ({ saPdbHom with representative :=
            { structure_id := some (StructId.homologyModel "hmHigh")
              seq_coverage := 2
              original_pdb_file := some "high.pdb"
              clean_pdb_file := some (envNoPass.cleanHomology "high.pdb") } },
         StructOutcome.setHomology "hmHigh", evalOrder saPdbHom) :=
  (set_representative_structure_homology_fallback envNoPass covKey saPdbHom
    "REF" "hmHigh" { model_file := "high.pdb", seq_coverage := 2 }
    (by decide) (by decide) (by decide) (by decide) (by decide) (by decide)).1

/-- C7: source selection of `set_representative_structure`.  A gene with
neither homology nor PDB candidates is skipped with no representative set;
with `always_use_homology=True`, homology is used whenever present, else the
PDB path runs; with `always_use_homology=False`, the PDB path runs whenever
PDB candidates exist (PDB wins when both exist), else homology is used. -/
theorem set_representative_structure_source_selection
    (env : StructEnv) (sortKey : HomologyEntry → Rat) (rf : Option String)
    (sa : StructureProp) :
    (sa.pdb = [] → sa.homology = [] → ∀ always,
      set_representative_structure env always sortKey rf sa =
        Except.ok (sa, StructOutcome.noStructure, [])) ∧
    (sa.homology ≠ [] →
      set_representative_structure env true sortKey rf sa =
        homologyPath env sortKey sa []) ∧
    (sa.homology = [] → sa.pdb ≠ [] →
      set_representative_structure env true sortKey rf sa =
        pdbPath env sortKey rf sa) ∧
    (sa.pdb ≠ [] →
      set_representative_structure env false sortKey rf sa =
        pdbPath env sortKey rf sa) ∧
    (sa.pdb = [] → sa.homology ≠ [] →
      set_representative_structure env false sortKey rf sa =
        homologyPath env sortKey sa []) :=
  ⟨fun h1 h2 always => srs_no_structures env sortKey rf sa h1 h2 always,
   fun h => srs_always_homology env sortKey rf sa h,
   fun h1 h2 => srs_always_pdb_only env sortKey rf sa h1 h2,
   fun h => srs_use_pdb env sortKey rf sa h,
   fun h1 h2 => srs_false_homology_only env sortKey rf sa h1 h2⟩

theorem set_representative_structure_source_selection_witness :
    set_representative_structure envSecondPasses true covKey (some "REF")
        defaultStructureProp =
      Except.ok (defaultStructureProp, StructOutcome.noStructure, []) ∧
    set_representative_structure envSecondPasses true covKey (some "REF") saPdbHom =
      homologyPath envSecondPasses covKey saPdbHom [] ∧
    set_representative_structure envSecondPasses true covKey (some "REF") saPdbOnly =
      pdbPath envSecondPasses covKey (some "REF") saPdbOnly ∧
    set_representative_structure envSecondPasses false covKey (some "REF") saPdbHom =
      pdbPath envSecondPasses covKey (some "REF") saPdbHom ∧
    set_representative_structure envSecondPasses false covKey (some "REF") saHomOnly =
      homologyPath envSecondPasses covKey saHomOnly [] :=
  ⟨(set_representative_structure_source_selection envSecondPasses covKey
      (some "REF") defaultStructureProp).1 (by decide) (by decide) true,
   (set_representative_structure_source_selection envSecondPasses covKey
      (some "REF") saPdbHom).2.1 (by decide),
   (set_representative_structure_source_selection envSecondPasses covKey
      (some "REF") saPdbOnly).2.2.1 (by decide) (by decide),
   (set_representative_structure_source_selection envSecondPasses covKey
      (some "REF") saPdbHom).2.2.2.1 (by decide),
   (set_representative_structure_source_selection envSecondPasses covKey
      (some "REF") saHomOnly).2.2.2.2 (by decide) (by decide)⟩

/-- C8 counterexample: with the chains of `1aaa` absent from its downloaded
structure file, `set_representative_structure` aborts with the uncaught
`KeyError` of `chain_to_seq[chain]` (gempro.py line 1034; the `except` at
line 1070 catches only `StopIteration`) — even though a later candidate
(`1bbb`/`A`) would pass QC.  The candidate with missing data is not skipped
and the search does not continue. -/
theorem set_representative_structure_missing_chain_counterexample :
    set_representative_structure envChainMiss false covKey (some "REF") saPdbHom =
      Except.error (StructError.missingChain "1aaa" "A") ∧
    List.find? (qcPass envChainMiss "REF") (evalOrder saPdbHom) =
      some ("1bbb", "A") := by
  constructor
  · decide
  · decide

/-- C8 (amended): during the PDB candidate search, a candidate whose chain
sequence is missing from its structure file is NOT skipped: once every
earlier candidate has its data and fails QC, the resolver aborts with an
uncaught error at the first candidate with missing data.  Likewise, a gene
whose representative sequence file is missing aborts before any candidate is
examined.  (The original claim — skip and continue with no fatal error — is
false; only `StopIteration` is caught.) -/
theorem set_representative_structure_missing_data_aborts
    (env : StructEnv) (sortKey : HomologyEntry → Rat) (sa : StructureProp)
    (refSeq : String) (l₁ : List (String × String)) (pc : String × String)
    (l₂ : List (String × String))
    (hpdb : sa.pdb ≠ [])
    (hdl : ∀ q ∈ sa.pdb.map Prod.fst, (env.download q.1).isSome = true)
    (hsplit : evalOrder sa = l₁ ++ pc :: l₂)
    (hpre : ∀ q ∈ l₁, (env.chainSeq q.1 q.2).isSome = true ∧
      qcPass env refSeq q = false)
    (hmiss : env.chainSeq pc.1 pc.2 = none) :
    set_representative_structure env false sortKey (some refSeq) sa =
      Except.error (StructError.missingChain pc.1 pc.2) ∧
    set_representative_structure env false sortKey none sa =
      Except.error StructError.missingRefSeqFile := by
  constructor
  · rw [srs_use_pdb env sortKey (some refSeq) sa hpdb]
    simp only [pdbPath]
    have hgd : ∀ g ∈ groupByPdb (pdbKeys sa), (env.download g.1).isSome = true := by
      intro g hg
      obtain ⟨q, hq, hq1⟩ := groupByPdb_pdbId_mem hg
      rw [← hq1]
      exact hdl q hq
    rw [pdbLoop_scan env refSeq (groupByPdb (pdbKeys sa)) [] hgd,
        show flattenGroups (groupByPdb (pdbKeys sa)) = evalOrder sa from rfl,
        hsplit, candidateScan_chainError env refSeq l₁ pc l₂ [] hpre hmiss]
  · rw [srs_use_pdb env sortKey none sa hpdb]
    rfl

theorem set_representative_structure_missing_data_aborts_witness :
    set_representative_structure envChainMiss false covKey (some "REF") saPdbHom =
      Except.error (StructError.missingChain "1aaa" "A") ∧
    set_representative_structure envChainMiss false covKey none saPdbHom =
      Except.error StructError.missingRefSeqFile :=
  set_representative_structure_missing_data_aborts envChainMiss covKey saPdbHom
    "REF" [] ("1aaa", "A") [("1bbb", "A"), ("1ccc", "B")]
    (by decide) (by decide) (by decide) (by decide) (by decide)

/-!
Ordered-dictionary merge lemmas for the two PDB ingestors.
-/

theorem odLookup_cons {K V : Type} [DecidableEq K] (kv : K × V)
    (m : List (K × V)) (k : K) :
    odLookup k (kv :: m) = if kv.1 = k then some kv.2 else odLookup k m := by
  obtain ⟨a, v⟩ := kv
  rfl

theorem odLookup_map_replace {K V : Type} [DecidableEq K]
    (m : List (K × V)) (k k' : K) (v : V) (h : k' ≠ k) :
    odLookup k (m.map (fun kv => if kv.1 = k' then (k', v) else kv)) =
      odLookup k m := by
  induction m with
  | nil => rfl
  | cons kv m ih =>
    rw [List.map_cons]
    by_cases hk : kv.1 = k'
    · rw [if_pos hk, odLookup_cons, odLookup_cons,
        if_neg (show ¬(((k', v) : K × V).1 = k) from h),
        if_neg (show ¬(kv.1 = k) from fun hh => h (hk ▸ hh)), ih]
    · rw [if_neg hk, odLookup_cons, odLookup_cons]
      by_cases hkk : kv.1 = k
      · rw [if_pos hkk, if_pos hkk]
      · rw [if_neg hkk, if_neg hkk, ih]

theorem odLookup_append_left {K V : Type} [DecidableEq K]
    (m l : List (K × V)) (k : K) (hk : odLookup k m = none) :
    odLookup k (m ++ l) = odLookup k l := by
  induction m with
  | nil => rfl
  | cons kv m ih =>
    by_cases hkk : kv.1 = k
    · simp [odLookup, hkk] at hk
    · simp only [odLookup, hkk, if_neg hkk, List.cons_append] at hk ⊢
      exact ih hk

theorem odLookup_append_some {K V : Type} [DecidableEq K]
    (m l : List (K × V)) (k : K) (v : V) (hk : odLookup k m = some v) :
    odLookup k (m ++ l) = some v := by
  induction m with
  | nil => simp [odLookup] at hk
  | cons kv m ih =>
    by_cases hkk : kv.1 = k
    · simp only [odLookup, if_pos hkk] at hk
      simp [odLookup, hkk, hk]
    · simp only [odLookup, if_neg hkk] at hk
      simp only [List.cons_append, odLookup, if_neg hkk]
      exact ih hk

theorem odSet_lookup_ne {K V : Type} [DecidableEq K]
    (m : List (K × V)) (k k' : K) (v : V) (h : k' ≠ k) :
    odLookup k (odSet m k' v) = odLookup k m := by
  unfold odSet
  by_cases hmem : k' ∈ m.map Prod.fst
  · rw [if_pos hmem]
    exact odLookup_map_replace m k k' v h
  · rw [if_neg hmem]
    cases hk : odLookup k m with
    | none =>
      rw [odLookup_append_left m _ k hk]
      simp [odLookup, h]
    | some v' => exact odLookup_append_some m _ k v' hk

theorem odUpdate_lookup_ne {K V : Type} [DecidableEq K] (k : K) :
    ∀ (adds m : List (K × V)), (∀ kv ∈ adds, kv.1 ≠ k) →
      odLookup k (odUpdate m adds) = odLookup k m := by
  intro adds
  induction adds with
  | nil => intro m _; rfl
  | cons kv adds ih =>
    intro m hne
    have h1 : odUpdate m (kv :: adds) = odUpdate (odSet m kv.1 kv.2) adds := rfl
    rw [h1, ih (odSet m kv.1 kv.2) (fun z hz => hne z (List.mem_cons_of_mem _ hz)),
        odSet_lookup_ne m k kv.1 kv.2 (hne kv (List.mem_cons_self _ _))]

/-- C5 counterexample: `map_uniprot_to_pdb` does NOT keep an existing entry
at a duplicate `(pdb, chain)` key — its merge (gempro.py lines 755-765)
deliberately replaces the existing entry with the newly ranked one (the
source's comment: "remove existing (pdb,chain) keys and use the
best_structure annotation instead").  Here an existing BLAST-sourced entry
at `("1abc", "A")` is replaced by a different ranked entry. -/
theorem map_uniprot_to_pdb_merge_counterexample :
    odLookup ("1abc", "A")
        (map_uniprot_to_pdb_merge [(("1abc", "A"), sampleBlastEntry)]
          [(("1abc", "A"), samplePdbEntry "1abc" "A" 1)]) =
      some (samplePdbEntry "1abc" "A" 1) ∧
    samplePdbEntry "1abc" "A" 1 ≠ sampleBlastEntry := by
  constructor
  · decide
  · decide

/-- C5 (amended): the drop-duplicates-in-favour-of-existing semantics holds
for the BLAST ingestor only: `blast_seqs_to_pdb` leaves every existing entry
untouched at duplicate keys, while `map_uniprot_to_pdb` gives precedence to
the newly ranked entries — a key present among the new entries resolves to
the new entry, replacing any existing one. -/
theorem pdb_merge_precedence
    (existing newEntries : List ((String × String) × PdbEntry))
    (k : String × String) :
    (k ∈ existing.map Prod.fst →
      odLookup k (blast_seqs_to_pdb_merge existing newEntries) =
        odLookup k existing) ∧
    (k ∈ newEntries.map Prod.fst →
      odLookup k (map_uniprot_to_pdb_merge existing newEntries) =
        odLookup k newEntries) := by
  constructor
  · intro hk
    unfold blast_seqs_to_pdb_merge
    refine odUpdate_lookup_ne k _ existing (fun kv hkv => ?_)
    have hmem := List.mem_filter.mp hkv
    have hnot := of_decide_eq_true hmem.2
    intro heq
    exact hnot (heq ▸ hk)
  · intro hk
    unfold map_uniprot_to_pdb_merge
    refine odUpdate_lookup_ne k _ newEntries (fun kv hkv => ?_)
    have hmem := List.mem_filter.mp hkv
    have hnot := of_decide_eq_true hmem.2
    intro heq
    exact hnot (heq ▸ hk)

theorem pdb_merge_precedence_witness :
    odLookup ("1abc", "A")
        (blast_seqs_to_pdb_merge [(("1abc", "A"), sampleBlastEntry)]
          [(("1abc", "A"), samplePdbEntry "1abc" "A" 1)]) =
      odLookup ("1abc", "A") [(("1abc", "A"), sampleBlastEntry)] ∧
    odLookup ("1abc", "A")
        (map_uniprot_to_pdb_merge [(("1abc", "A"), sampleBlastEntry)]
          [(("1abc", "A"), samplePdbEntry "1abc" "A" 1)]) =
      odLookup ("1abc", "A") [(("1abc", "A"), samplePdbEntry "1abc" "A" 1)] :=
  ⟨(pdb_merge_precedence [(("1abc", "A"), sampleBlastEntry)]
      [(("1abc", "A"), samplePdbEntry "1abc" "A" 1)] ("1abc", "A")).1 (by decide),
   (pdb_merge_precedence [(("1abc", "A"), sampleBlastEntry)]
      [(("1abc", "A"), samplePdbEntry "1abc" "A" 1)] ("1abc", "A")).2 (by decide)⟩

/-- C9: `manual_homology_models` checks `'model_file' in hdict` first for
each entry; on the first entry lacking it, it raises `KeyError` immediately
(gempro.py lines 895-896) — before copying that entry's model file or
storing that entry, and before touching any later entry.  Entries preceding
the offending one have already been copied and stored. -/
theorem manual_homology_models_missing_model_file_raises
    (l₁ : List (String × ManualHomologyInput)) (hid : String)
    (h : ManualHomologyInput) (l₂ : List (String × ManualHomologyInput))
    (hmiss : h.model_file = none)
    (hpre : ∀ p ∈ l₁, (p.2.model_file).isSome = true) :
    manual_homology_models_gene (l₁ ++ (hid, h) :: l₂) =
      (l₁.filterMap (fun p => p.2.model_file.map (fun f => (p.1, f))), l₁,
       some hid) := by
  revert hpre
  induction l₁ with
  | nil =>
    intro _
    simp [manual_homology_models_gene, hmiss]
  | cons p l₁ ih =>
    intro hpre
    obtain ⟨pid, pe⟩ := p
    obtain ⟨f, hf⟩ := Option.isSome_iff_exists.mp
      (hpre (pid, pe) (List.mem_cons_self _ _))
    have hf' : pe.model_file = some f := hf
    have ihh := ih (fun z hz => hpre z (List.mem_cons_of_mem _ hz))
    simp [manual_homology_models_gene, hf', ihh, List.filterMap_cons]

theorem manual_homology_models_missing_model_file_raises_witness :
    manual_homology_models_gene
        ([("h1", manualGood)] ++ ("h2", manualBad) :: [("h3", manualGood)]) =
      ([("h1", manualGood)].filterMap
        (fun p => p.2.model_file.map (fun f => (p.1, f))),
       [("h1", manualGood)], some "h2") :=
  manual_homology_models_missing_model_file_raises [("h1", manualGood)] "h2"
    manualBad [("h3", manualGood)] (by decide) (by decide)

/-!
Gene initialization invariants.
-/

theorem map_fst_filter_keys {A B : Type} (p : A → Bool) (l : List (A × B)) :
    (l.filter (fun g => p g.1)).map Prod.fst = (l.map Prod.fst).filter p := by
  induction l with
  | nil => rfl
  | cons g l ih => cases hp : p g.1 <;> simp [List.filter_cons, hp, ih]

theorem genes_setter_map_fst (ids : List String) :
    (genes_setter ids).map Prod.fst = ids.dedup := by
  rw [genes_setter, List.map_map,
    show (Prod.fst ∘ fun i : String => (i, freshGeneProp)) = fun i : String => i
      from rfl]
  exact List.map_id ids.dedup

/-- C10: gene-list initialization.  Duplicate IDs passed to the `genes`
setter collapse so each distinct ID yields exactly one gene, and the same
holds after `add_genes_by_id` into a project whose gene IDs are distinct
(`DictList.union` adds only unseen IDs).  Every newly created gene carries
the default annotation slots — empty UniProt mapping, representative
sequence with `seq_len = 0` and no PDBs, empty structure mappings,
representative `structure_id = None` — hence a fresh gene is not treated as
already finalized: the sequence resolver reports `unresolved` rather than
`alreadySet`, and the structure resolver skips the gene with no
representative set. -/
theorem gene_initialization_defaults
    (ids : List String) (gid : String) (hidm : gid ∈ ids) :
    ((genes_setter ids).map Prod.fst).count gid = 1 ∧
    (∀ g ∈ genes_setter ids, g.2 = freshGeneProp) ∧
    (∀ existing : List (String × GeneProp), (existing.map Prod.fst).Nodup →
      ((add_genes_by_id existing ids).map Prod.fst).count gid = 1) ∧
    (∀ (existing : List (String × GeneProp)) (g : String × GeneProp),
      g ∈ add_genes_by_id existing ids → g ∈ existing ∨ g.2 = freshGeneProp) ∧
    freshGeneProp.sequence.uniprot = [] ∧
    freshGeneProp.sequence.representative.seq_len = 0 ∧
    freshGeneProp.sequence.representative.pdbs = [] ∧
    freshGeneProp.struct.pdb = [] ∧
    freshGeneProp.struct.homology = [] ∧
    freshGeneProp.struct.representative.structure_id = none ∧
    (set_representative_sequence freshGeneProp.sequence).2 =
      SeqOutcome.unresolved ∧
    (∀ (env : StructEnv) (always : Bool) (sortKey : HomologyEntry → Rat)
      (rf : Option String),
      set_representative_structure env always sortKey rf freshGeneProp.struct =
        Except.ok (freshGeneProp.struct, StructOutcome.noStructure, [])) := by
  have hsetter : ((genes_setter ids).map Prod.fst).count gid = 1 := by
    rw [genes_setter_map_fst, List.count_dedup, if_pos hidm]
  refine ⟨hsetter, ?_, ?_, ?_, rfl, rfl, rfl, rfl, rfl, rfl, by decide, ?_⟩
  · intro g hg
    obtain ⟨i, _, hgi⟩ := List.mem_map.mp hg
    rw [← hgi]
  · intro existing hnd
    have hsplit : (add_genes_by_id existing ids).map Prod.fst =
        existing.map Prod.fst ++
          ((genes_setter ids).filter
            (fun g => decide (g.1 ∉ existing.map Prod.fst))).map Prod.fst := by
      simp [add_genes_by_id]
    rw [hsplit, List.count_append,
        map_fst_filter_keys (fun x => decide (x ∉ existing.map Prod.fst))
          (genes_setter ids),
        genes_setter_map_fst]
    by_cases hmem : gid ∈ existing.map Prod.fst
    · have c1 : (existing.map Prod.fst).count gid = 1 :=
        List.count_eq_one_of_mem hnd hmem
      have c2 : ((ids.dedup).filter
          (fun x => decide (x ∉ existing.map Prod.fst))).count gid = 0 := by
        rw [List.count_eq_zero]
        intro hg
        exact of_decide_eq_true (List.mem_filter.mp hg).2 hmem
      omega
    · have c1 : (existing.map Prod.fst).count gid = 0 :=
        List.count_eq_zero.mpr hmem
      have c2 : ((ids.dedup).filter
          (fun x => decide (x ∉ existing.map Prod.fst))).count gid = 1 := by
        rw [List.count_filter (by simpa using hmem), List.count_dedup, if_pos hidm]
      omega
  · intro existing g hg
    rcases List.mem_append.mp hg with hl | hr
    · exact Or.inl hl
    · right
      obtain ⟨i, _, hgi⟩ := List.mem_map.mp (List.mem_filter.mp hr).1
      rw [← hgi]
  · intro env always sortKey rf
    exact srs_no_structures env sortKey rf freshGeneProp.struct rfl rfl always

theorem gene_initialization_defaults_witness :
    ((genes_setter ["b1", "b2", "b1"]).map Prod.fst).count "b1" = 1 ∧
    ((add_genes_by_id [("b0", freshGeneProp)] ["b1", "b2", "b1"]).map
      Prod.fst).count "b1" = 1 ∧
    (set_representative_sequence freshGeneProp.sequence).2 =
      SeqOutcome.unresolved ∧
    set_representative_structure envSecondPasses true covKey (some "REF")
        freshGeneProp.struct =
      Except.ok (freshGeneProp.struct, StructOutcome.noStructure, []) := by
  obtain ⟨h1, h2, h3, h4, h5, h6, h7, h8, h9, h10, h11, h12⟩ :=
    gene_initialization_defaults ["b1", "b2", "b1"] "b1" (by decide)
  exact ⟨h1, h3 [("b0", freshGeneProp)] (by decide), h11,
    h12 envSecondPasses true covKey (some "REF")⟩
